import Mathlib

/-!
# Verification of the AI-Quizzer scoring and review pipeline

Shallow embedding of the quiz scoring, review, generation and hint logic of
`src/api/main.py` (endpoints `submit_quiz`, `get_submission_details`,
`generate_quiz`, `get_hint`) over the data model of `src/quiz/models.py`.

Numeric conventions: Python's float arithmetic on `max_score / total_questions`
is modelled with exact rationals (`ℚ`); Python 3's built-in `round` (round half
to even) is modelled by `pyRound`. Python dicts are modelled as association
lists with insert-or-replace semantics preserving insertion order.
-/

namespace AIQuizzer

/-- `quiz.models.Question`: one question row.  `options` holds the
`{"choices": [...]}` payload's list of choice strings. -/
structure Question where
  id : Nat
  text : String
  options : List String
  correct_answer : String
  difficulty : String
  deriving Repr, DecidableEq

/-- `quiz.models.Quiz` with its question set prefetched
(`Quiz.objects.prefetch_related('questions')` in `submit_quiz`). -/
structure Quiz where
  id : Nat
  title : String
  subject : String
  grade : Int
  max_score : Nat
  questions : List Question
  deriving Repr, DecidableEq

/-- `QuizResponseItem` pydantic input model: one submitted answer. -/
structure QuizResponseItem where
  questionId : Nat
  userResponse : String
  deriving Repr, DecidableEq

/-- One entry of the `detailed_results` list stored on the Submission row. -/
structure ResultItem where
  question_id : Nat
  is_correct : Bool
  user_answer : String
  correct_answer : String
  deriving Repr, DecidableEq

/-- One entry of the `detailed_breakdown` list returned by `submit_quiz`. -/
structure BreakdownItem where
  question_text : String
  is_correct : Bool
  user_answer : String
  correct_answer : String
  deriving Repr, DecidableEq

/-- `quiz.models.Submission`: the row written by `submit_quiz`.  The
`answers` JSON dict (keys `str(question.id)`) is an association list in
insertion order. -/
structure Submission where
  quiz_id : Nat
  answers : List (String × String)
  results : List ResultItem
  score : Int
  max_score : Nat
  deriving Repr, DecidableEq

/-! ## Python dict model -/

/-- Python dict assignment `m[k] = v`: replace the value in place at the
key's (unique) position if the key exists, else append.  Python dicts keep
keys unique, so replacing the first occurrence models the update exactly. -/
def dictInsert {κ α : Type} [BEq κ] (m : List (κ × α)) (k : κ) (v : α) :
    List (κ × α) :=
  match m with
  | [] => [(k, v)]
  | p :: rest => if p.1 == k then (k, v) :: rest else p :: dictInsert rest k v

/-- Python dict lookup `m.get(k)`. -/
def dictGet {κ α : Type} [BEq κ] (m : List (κ × α)) (k : κ) : Option α :=
  (m.find? (fun p => p.1 == k)).map Prod.snd

/-- `{q.id: q for q in quiz.questions.all()}` in `submit_quiz`. -/
def questionsDict (qs : List Question) : List (Nat × Question) :=
  qs.foldl (fun m q => dictInsert m q.id q) []

/-! ## Answer normalization and rounding -/

/-- Python `str.upper()` (ASCII case mapping, which covers the answer-key
alphabet used by the program). -/
def pyUpper (s : String) : String :=
  ⟨s.data.map Char.toUpper⟩

/-- Python `str.strip()`: remove leading and trailing whitespace. -/
def pyStrip (s : String) : String :=
  ⟨((s.data.dropWhile Char.isWhitespace).reverse.dropWhile
      Char.isWhitespace).reverse⟩

/-- `resp.userResponse.strip().upper() == question.correct_answer.strip().upper()`
(`main.py` line 389). -/
def answerIsCorrect (userResponse correct_answer : String) : Bool :=
  pyUpper (pyStrip userResponse) == pyUpper (pyStrip correct_answer)

/-- Python 3's built-in `round` to the nearest integer, ties to even
(banker's rounding), on exact rationals. -/
def pyRound (q : ℚ) : ℤ :=
  if q - (⌊q⌋ : ℚ) < 1/2 then ⌊q⌋
  else if (1 : ℚ)/2 < q - (⌊q⌋ : ℚ) then ⌊q⌋ + 1
  else if ⌊q⌋ % 2 = 0 then ⌊q⌋ else ⌊q⌋ + 1

/-! ## The scoring loop of `submit_quiz` (`main.py` lines 369–416) -/

/-- The mutable locals of the `for resp in payload.responses:` loop. -/
structure GradeState where
  correct_count : Nat
  calculated_score : ℚ
  detailed_breakdown : List BreakdownItem
  detailed_results : List ResultItem
  user_answers : List (String × String)
  deriving Repr, DecidableEq

def initGradeState : GradeState :=
  { correct_count := 0, calculated_score := 0, detailed_breakdown := [],
    detailed_results := [], user_answers := [] }

/-- One iteration of the loop body: skip unknown ids, judge the answer,
accumulate score/count, append breakdown and results entries, store the raw
answer under `str(question.id)`. -/
def gradeStep (questions : List (Nat × Question)) (ppq : ℚ)
    (st : GradeState) (resp : QuizResponseItem) : GradeState :=
  match dictGet questions resp.questionId with
  | none => st
  | some question =>
    let is_correct := answerIsCorrect resp.userResponse question.correct_answer
    { correct_count := if is_correct then st.correct_count + 1 else st.correct_count
      calculated_score :=
        if is_correct then st.calculated_score + ppq else st.calculated_score
      detailed_breakdown := st.detailed_breakdown ++
        [{ question_text := question.text, is_correct := is_correct,
           user_answer := pyUpper resp.userResponse,
           correct_answer := question.correct_answer }]
      detailed_results := st.detailed_results ++
        [{ question_id := question.id, is_correct := is_correct,
           user_answer := resp.userResponse,
           correct_answer := question.correct_answer }]
      user_answers :=
        dictInsert st.user_answers (toString question.id) resp.userResponse }

/-- Everything `submit_quiz` computes after the quiz lookup: the persisted
Submission row plus the response fields derived from the loop locals.
`calculated_score` is the raw (pre-rounding) accumulated score. -/
structure SubmitResult where
  submission : Submission
  correct_count : Nat
  total_questions : Nat
  calculated_score : ℚ
  detailed_breakdown : List BreakdownItem
  deriving Repr, DecidableEq

/-- The scoring logic of `submit_quiz` on a quiz that was found
(`main.py` lines 369–416). -/
def submit_quiz (quiz : Quiz) (responses : List QuizResponseItem) : SubmitResult :=
  let questions := questionsDict quiz.questions
  let total_questions := questions.length
  let points_per_question : ℚ :=
    if total_questions = 0 then 0
    else (quiz.max_score : ℚ) / (total_questions : ℚ)
  let final := responses.foldl (gradeStep questions points_per_question)
    initGradeState
  { submission :=
      { quiz_id := quiz.id
        answers := final.user_answers
        results := final.detailed_results
        score := pyRound final.calculated_score
        max_score := quiz.max_score }
    correct_count := final.correct_count
    total_questions := total_questions
    calculated_score := final.calculated_score
    detailed_breakdown := final.detailed_breakdown }

/-! ## Review reconstruction: `get_submission_details` (`main.py` lines 485–517) -/

/-- `QuestionReview` pydantic output model. -/
structure QuestionReview where
  question_text : String
  your_answer : String
  correct_answer : String
  is_correct : Bool
  deriving Repr, DecidableEq

/-- `{q.id: q.text for q in submission.quiz.questions.all()}`. -/
def questionTextsDict (qs : List Question) : List (Nat × String) :=
  qs.foldl (fun m q => dictInsert m q.id q.text) []

/-- The loop over `submission.results` in `get_submission_details`: question
text looked up by id with the `"Question text not found."` default, answer
upper-cased for display, correctness flag taken from the stored record. -/
def reviewItem (question_texts : List (Nat × String)) (r : ResultItem) :
    QuestionReview :=
  { question_text := (dictGet question_texts r.question_id).getD
      "Question text not found."
    your_answer := pyUpper r.user_answer
    correct_answer := r.correct_answer
    is_correct := r.is_correct }

/-- The review list of `get_submission_details` for a found submission whose
quiz's questions are `quiz_questions`. -/
def get_submission_details (quiz_questions : List Question)
    (submission : Submission) : List QuestionReview :=
  submission.results.map (reviewItem (questionTextsDict quiz_questions))

/-! ## Quiz generation: `generate_quiz` (`main.py` lines 295–357)

The database is modelled as the two tables touched by the endpoint; the AI
call result is an explicit input (`Except` for a transport/parse failure,
per-item records with optional fields for malformed question payloads). -/

/-- A quiz row as stored by `Quiz.objects.create` (no questions loaded). -/
structure QuizRow where
  id : Nat
  title : String
  subject : String
  grade : Int
  max_score : Nat
  deriving Repr, DecidableEq

/-- A question row as stored by `Question.objects.bulk_create`. -/
structure QuestionRow where
  quiz_id : Nat
  text : String
  options : List String
  correct_answer : String
  difficulty : String
  deriving Repr, DecidableEq

/-- The quiz and question tables. -/
structure DB where
  quizzes : List QuizRow
  questions : List QuestionRow
  deriving Repr, DecidableEq

/-- `quiz.delete()`: removes the quiz row and (by `on_delete=CASCADE`) its
question rows. -/
def quizDelete (db : DB) (qid : Nat) : DB :=
  { quizzes := db.quizzes.filter (fun q => q.id ≠ qid)
    questions := db.questions.filter (fun q => q.quiz_id ≠ qid) }

/-- One item of the AI response's `questions` list; a missing key of the
required four is a `none` field. -/
structure QData where
  text : Option String
  options : Option (List String)
  correct_answer : Option String
  difficulty : Option String
  deriving Repr, DecidableEq

/-- `all(key in q_data for key in ["text", "options", "correct_answer",
"difficulty"])`. -/
def qdataValid (q : QData) : Bool :=
  q.text.isSome && q.options.isSome && q.correct_answer.isSome &&
    q.difficulty.isSome

/-- Building the `Question` model instance from a validated AI item. -/
def buildQuestion (quiz_id : Nat) (q : QData) : QuestionRow :=
  { quiz_id := quiz_id
    text := q.text.getD ""
    options := q.options.getD []
    correct_answer := q.correct_answer.getD ""
    difficulty := q.difficulty.getD "" }

/-- `GenerateQuizIn` pydantic input model (`total_questions` and `max_score`
are validated `gt=0`). -/
structure GenerateQuizIn where
  grade : Int
  subject : String
  total_questions : Nat
  max_score : Nat
  deriving Repr, DecidableEq

/-- The persistence effects of `generate_quiz`: create the quiz row, then on
AI failure (`.error`) or when every returned item is malformed, delete the
quiz row and fail; otherwise bulk-insert the surviving questions.  `new_id`
is the primary key the store assigns to the created quiz. -/
def generate_quiz (db : DB) (payload : GenerateQuizIn) (new_id : Nat)
    (ai_response : Except Unit (List QData)) : Except Unit Nat × DB :=
  let quizRow : QuizRow :=
    { id := new_id
      title := payload.subject ++ " Quiz for Grade " ++ toString payload.grade
      subject := payload.subject
      grade := payload.grade
      max_score := payload.max_score }
  let db1 : DB := { db with quizzes := db.quizzes ++ [quizRow] }
  match ai_response with
  | .error _ => (.error (), quizDelete db1 new_id)
  | .ok questions_data =>
    let questions_to_create :=
      (questions_data.filter qdataValid).map (buildQuestion new_id)
    if questions_to_create.isEmpty then (.error (), quizDelete db1 new_id)
    else (.ok new_id,
      { db1 with questions := db1.questions ++ questions_to_create })

/-! ## Hints: `get_hint` (`main.py` lines 542–567) -/

/-- The module-global `hint_cache` dict, keyed by question id. -/
abbrev HintCache := List (Nat × String)

/-- `get_hint`: a cache hit returns the cached hint with no existence check;
a cache miss looks the question up (404 on absence, modelled as `.error`),
then stores and returns the stripped AI hint.  `ai_hint` stands for the
`ai_service.generate_text_response` result on the prompt built from the
question. -/
def get_hint (cache : HintCache) (questions : List Question)
    (questionId : Nat) (ai_hint : String) :
    Except Unit (Nat × String × HintCache) :=
  match dictGet cache questionId with
  | some h => .ok (questionId, h, cache)
  | none =>
    match (questions.find? (fun q => q.id == questionId)) with
    | none => .error ()
    | some question =>
      .ok (question.id, pyStrip ai_hint,
        dictInsert cache questionId (pyStrip ai_hint))

/-! ## Auxiliary predicates describing the scoring loop -/

/-- A submitted answer that resolves to a question of the quiz (the loop does
not `continue` past it). -/
def respMatched (questions : List (Nat × Question)) (r : QuizResponseItem) :
    Bool :=
  (dictGet questions r.questionId).isSome

/-- A submitted answer that resolves to a question and is judged correct. -/
def respCorrect (questions : List (Nat × Question)) (r : QuizResponseItem) :
    Bool :=
  match dictGet questions r.questionId with
  | none => false
  | some q => answerIsCorrect r.userResponse q.correct_answer

/-- The `detailed_results` entry the loop appends for a matched response. -/
def resultOf (questions : List (Nat × Question)) (r : QuizResponseItem) :
    ResultItem :=
  match dictGet questions r.questionId with
  | none => { question_id := 0, is_correct := false, user_answer := "",
              correct_answer := "" }
  | some q =>
    { question_id := q.id
      is_correct := answerIsCorrect r.userResponse q.correct_answer
      user_answer := r.userResponse
      correct_answer := q.correct_answer }

/-- The `detailed_breakdown` entry the loop appends for a matched response. -/
def breakdownOf (questions : List (Nat × Question)) (r : QuizResponseItem) :
    BreakdownItem :=
  match dictGet questions r.questionId with
  | none => { question_text := "", is_correct := false, user_answer := "",
              correct_answer := "" }
  | some q =>
    { question_text := q.text
      is_correct := answerIsCorrect r.userResponse q.correct_answer
      user_answer := pyUpper r.userResponse
      correct_answer := q.correct_answer }

/-- The claimed rounding mode of the specification: round half up
(`round(x) = ⌊x + 1/2⌋`), stated from the spec's words for comparison with
the implementation's `pyRound`. -/
def specRoundHalfUp (q : ℚ) : ℤ := ⌊q + 1/2⌋

/-! ## Concrete fixtures used to evaluate the embedding -/

def qA : Question :=
  { id := 1, text := "What is 2 + 2?", options := ["A. 4", "B. 5"],
    correct_answer := "A", difficulty := "easy" }

def qB : Question :=
  { id := 2, text := "What is 3 + 3?", options := ["A. 5", "B. 6"],
    correct_answer := "B", difficulty := "medium" }

def qC : Question :=
  { id := 3, text := "What is 4 + 4?", options := ["A. 7", "C. 8"],
    correct_answer := "C", difficulty := "hard" }

/-- One question worth `max_score = 1`. -/
def quizOne : Quiz :=
  { id := 10, title := "math Quiz for Grade 1", subject := "math", grade := 1,
    max_score := 1, questions := [qA] }

/-- Two questions worth `max_score = 1`, so half a point each. -/
def quizTwo : Quiz :=
  { id := 11, title := "math Quiz for Grade 1", subject := "math", grade := 1,
    max_score := 1, questions := [qA, qB] }

/-- Three questions worth `max_score = 10` (the spec's rounding scenario). -/
def quizThree : Quiz :=
  { id := 12, title := "math Quiz for Grade 1", subject := "math", grade := 1,
    max_score := 10, questions := [qA, qB, qC] }

/-- A quiz with no questions and `max_score = 5` (the spec's zero-question
scenario). -/
def quizEmpty : Quiz :=
  { id := 13, title := "math Quiz for Grade 1", subject := "math", grade := 1,
    max_score := 5, questions := [] }

/-- A database holding one unrelated quiz with one question. -/
def dbOne : DB :=
  { quizzes :=
      [{ id := 1, title := "history Quiz for Grade 2",
         subject := "history", grade := 2, max_score := 3 }],
    questions :=
      [{ quiz_id := 1, text := "When?", options := ["A. 1900"],
         correct_answer := "A", difficulty := "easy" }] }

/-- A concrete generation request. -/
def payloadMath : GenerateQuizIn :=
  { grade := 1, subject := "math", total_questions := 2, max_score := 4 }

/-! ## Association-list dictionary lemmas -/

theorem dictGet_dictInsert {κ α : Type} [BEq κ] [LawfulBEq κ]
    (m : List (κ × α)) (k' k : κ) (v : α) :
    dictGet (dictInsert m k' v) k =
      if k' == k then some v else dictGet m k := by
  induction m with
  | nil =>
    by_cases h : k' == k <;> simp [dictInsert, dictGet, List.find?, h]
  | cons p rest ih =>
    by_cases hp : p.1 == k'
    · have hp' : p.1 = k' := by simpa using hp
      by_cases h : k' == k
      · simp [dictInsert, hp, dictGet, List.find?, h]
      · have hpk : (p.1 == k) = false := by
          subst hp'; simpa using h
        simp [dictInsert, hp, dictGet, List.find?, h, hpk]
    · by_cases hpk : p.1 == k
      · have h1 : p.1 = k := by simpa using hpk
        have hne : p.1 ≠ k' := by simpa using hp
        have h2 : (k' == k) = false := by
          refine beq_eq_false_iff_ne.mpr ?_
          subst h1
          exact fun hkk => hne hkk.symm
        simp [dictInsert, hp, dictGet, List.find?, hpk, h2]
      · simp only [dictInsert, hp, if_false, dictGet, List.find?, hpk]
        simpa [dictGet] using ih

theorem dictGet_mem {κ α : Type} [BEq κ] [LawfulBEq κ]
    (m : List (κ × α)) (k : κ) (v : α) (h : dictGet m k = some v) :
    (k, v) ∈ m := by
  unfold dictGet at h
  rcases Option.map_eq_some'.mp h with ⟨p, hp, hv⟩
  have hmem := List.mem_of_find?_eq_some hp
  have hkey := List.find?_some hp
  have : p.1 = k := by simpa using hkey
  cases p
  simp_all

theorem mem_dictInsert {κ α : Type} [BEq κ]
    (m : List (κ × α)) (k : κ) (v : α) (p : κ × α)
    (h : p ∈ dictInsert m k v) : p = (k, v) ∨ p ∈ m := by
  induction m with
  | nil => simpa [dictInsert] using h
  | cons p' rest ih =>
    by_cases hk : p'.1 == k
    · simp only [dictInsert, hk, if_true] at h
      rcases List.mem_cons.mp h with h | h
      · exact Or.inl h
      · exact Or.inr (List.mem_cons.mpr (Or.inr h))
    · simp only [dictInsert, hk, if_false] at h
      rcases List.mem_cons.mp h with h | h
      · exact Or.inr (List.mem_cons.mpr (Or.inl h))
      · rcases ih h with h | h
        · exact Or.inl h
        · exact Or.inr (List.mem_cons.mpr (Or.inr h))

/-! ## Lemmas about `questionsDict` -/

theorem questionsDict_snd_id (qs : List Question) :
    ∀ p ∈ questionsDict qs, p.2.id = p.1 := by
  suffices h : ∀ m : List (Nat × Question), (∀ p ∈ m, p.2.id = p.1) →
      ∀ p ∈ qs.foldl (fun m q => dictInsert m q.id q) m, p.2.id = p.1 by
    exact h [] (by simp)
  induction qs with
  | nil => intro m hm; simpa using hm
  | cons q qs ih =>
    intro m hm
    refine ih (dictInsert m q.id q) ?_
    intro p hp
    rcases mem_dictInsert m q.id q p hp with h | h
    · subst h; rfl
    · exact hm p h

theorem dictInsert_eq_append {κ α : Type} [BEq κ] [LawfulBEq κ]
    (m : List (κ × α)) (k : κ) (v : α) (h : ∀ p ∈ m, p.1 ≠ k) :
    dictInsert m k v = m ++ [(k, v)] := by
  induction m with
  | nil => rfl
  | cons p rest ih =>
    have hp : (p.1 == k) = false :=
      beq_eq_false_iff_ne.mpr (h p (List.mem_cons.mpr (Or.inl rfl)))
    simp [dictInsert, hp, ih (fun p hp => h p (List.mem_cons.mpr (Or.inr hp)))]

theorem questionsDict_eq_map (qs : List Question)
    (hnd : (qs.map Question.id).Nodup) :
    questionsDict qs = qs.map (fun q => (q.id, q)) := by
  suffices h : ∀ m : List (Nat × Question), (qs.map Question.id).Nodup →
      (∀ q ∈ qs, ∀ p ∈ m, p.1 ≠ q.id) →
      qs.foldl (fun m q => dictInsert m q.id q) m =
        m ++ qs.map (fun q => (q.id, q)) by
    simpa [questionsDict] using h [] hnd (by simp)
  clear hnd
  induction qs with
  | nil => simp
  | cons q qs ih =>
    intro m hnd hfresh
    simp only [List.foldl_cons]
    rw [dictInsert_eq_append m q.id q
      (fun p hp => hfresh q (List.mem_cons.mpr (Or.inl rfl)) p hp)]
    have hnd' : (∀ x ∈ qs, ¬x.id = q.id) ∧ (qs.map Question.id).Nodup := by
      simpa using hnd
    rw [ih (m ++ [(q.id, q)]) hnd'.2 ?_]
    · simp
    · intro q' hq' p hp
      rcases List.mem_append.mp hp with h | h
      · exact hfresh q' (List.mem_cons.mpr (Or.inr hq')) p h
      · have hp1 : p = (q.id, q) := by simpa using h
        subst hp1
        exact fun hc => hnd'.1 q' hq' hc.symm

theorem dictGet_questionsDict_self (qs : List Question)
    (hnd : (qs.map Question.id).Nodup) (q : Question) (hq : q ∈ qs) :
    dictGet (questionsDict qs) q.id = some q := by
  rw [questionsDict_eq_map qs hnd]
  induction qs with
  | nil => cases hq
  | cons a qs ih =>
    rcases List.mem_cons.mp hq with h | h
    · subst h
      simp [dictGet, List.find?]
    · have hnd' : (∀ x ∈ qs, ¬x.id = a.id) ∧ (qs.map Question.id).Nodup := by
        simpa using hnd
      have hne : (a.id == q.id) = false :=
        beq_eq_false_iff_ne.mpr (fun hc => hnd'.1 q h hc.symm)
      simp only [List.map_cons, dictGet, List.find?, hne]
      exact ih hnd'.2 h

theorem mem_keys_of_dictGet {κ α : Type} [BEq κ] [LawfulBEq κ]
    (m : List (κ × α)) (k : κ) (v : α) (h : dictGet m k = some v) :
    k ∈ m.map Prod.fst := by
  have := dictGet_mem m k v h
  exact List.mem_map.mpr ⟨(k, v), this, rfl⟩

/-! ## Lemmas about `pyRound` -/

theorem pyRound_intCast (m : ℤ) : pyRound (m : ℚ) = m := by
  unfold pyRound
  rw [Int.floor_intCast]
  simp

theorem pyRound_natCast (n : ℕ) : pyRound (n : ℚ) = n := by
  simpa using pyRound_intCast (n : ℤ)

theorem pyRound_nonneg {q : ℚ} (h : 0 ≤ q) : 0 ≤ pyRound q := by
  have hf : (0 : ℤ) ≤ ⌊q⌋ := Int.floor_nonneg.mpr h
  unfold pyRound
  split
  · exact hf
  · split
    · omega
    · split <;> omega

theorem pyRound_le {q : ℚ} {M : ℤ} (h : q ≤ (M : ℚ)) : pyRound q ≤ M := by
  have hfl : ⌊q⌋ ≤ M := by
    calc ⌊q⌋ ≤ ⌊(M : ℚ)⌋ := Int.floor_le_floor h
    _ = M := Int.floor_intCast M
  have hle : (⌊q⌋ : ℚ) ≤ q := Int.floor_le q
  unfold pyRound
  split
  · exact hfl
  · rename_i h1
    have hhalf : (1 : ℚ)/2 ≤ q - (⌊q⌋ : ℚ) := le_of_not_lt h1
    have hstrict : (⌊q⌋ : ℚ) < (M : ℚ) := by linarith
    have : ⌊q⌋ < M := by exact_mod_cast hstrict
    split
    · omega
    · split <;> omega

theorem abs_pyRound_sub_le (q : ℚ) : |q - (pyRound q : ℚ)| ≤ 1/2 := by
  have h0 : (⌊q⌋ : ℚ) ≤ q := Int.floor_le q
  have h1 : q < (⌊q⌋ : ℚ) + 1 := Int.lt_floor_add_one q
  unfold pyRound
  split
  · rename_i hlt
    rw [abs_of_nonneg (by linarith)]
    linarith
  · rename_i hnlt
    have hge : (1 : ℚ)/2 ≤ q - (⌊q⌋ : ℚ) := le_of_not_lt hnlt
    split
    · rename_i hgt
      rw [abs_of_nonpos (by push_cast; linarith)]
      push_cast
      linarith
    · rename_i hngt
      have heq : q - (⌊q⌋ : ℚ) = 1/2 := le_antisymm (le_of_not_lt hngt) hge
      split
      · rw [abs_of_nonneg (by linarith)]
        linarith
      · rw [abs_of_nonpos (by push_cast; linarith)]
        push_cast
        linarith

theorem pyRound_tie_even {q : ℚ} (h : |q - (pyRound q : ℚ)| = 1/2) :
    Even (pyRound q) := by
  have h0 : (⌊q⌋ : ℚ) ≤ q := Int.floor_le q
  have h1 : q < (⌊q⌋ : ℚ) + 1 := Int.lt_floor_add_one q
  unfold pyRound at h ⊢
  rcases hc : decide (q - (⌊q⌋ : ℚ) < 1/2) with _ | _
  · have hnlt : ¬(q - (⌊q⌋ : ℚ) < 1/2) := of_decide_eq_false hc
    have hge : (1 : ℚ)/2 ≤ q - (⌊q⌋ : ℚ) := le_of_not_lt hnlt
    simp only [hnlt, if_false] at h ⊢
    rcases hc2 : decide ((1 : ℚ)/2 < q - (⌊q⌋ : ℚ)) with _ | _
    · have hngt : ¬((1 : ℚ)/2 < q - (⌊q⌋ : ℚ)) := of_decide_eq_false hc2
      simp only [hngt, if_false] at h ⊢
      rcases hc3 : decide (⌊q⌋ % 2 = 0) with _ | _
      · have hodd : ¬(⌊q⌋ % 2 = 0) := of_decide_eq_false hc3
        simp only [hodd, if_false]
        have : ⌊q⌋ % 2 = 1 := Int.emod_two_eq_zero_or_one ⌊q⌋ |>.resolve_left hodd
        refine Int.even_add_one.mpr ?_
        rw [Int.even_iff]
        omega
      · have heven : ⌊q⌋ % 2 = 0 := of_decide_eq_true hc3
        simp only [heven, if_true]
        exact Int.even_iff.mpr heven
    · have hgt : (1 : ℚ)/2 < q - (⌊q⌋ : ℚ) := of_decide_eq_true hc2
      simp only [hgt, if_true] at h
      rw [abs_of_nonpos (by push_cast; linarith)] at h
      push_cast at h
      linarith
  · have hlt : q - (⌊q⌋ : ℚ) < 1/2 := of_decide_eq_true hc
    simp only [hlt, if_true] at h
    rw [abs_of_nonneg (by linarith)] at h
    linarith

/-! ## Lemmas about the scoring fold -/

theorem gradeStep_unmatched (questions : List (Nat × Question)) (ppq : ℚ)
    (st : GradeState) (r : QuizResponseItem)
    (h : dictGet questions r.questionId = none) :
    gradeStep questions ppq st r = st := by
  unfold gradeStep
  rw [h]

theorem foldl_gradeStep_filter (questions : List (Nat × Question)) (ppq : ℚ)
    (rs : List QuizResponseItem) :
    ∀ st : GradeState, rs.foldl (gradeStep questions ppq) st
      = (rs.filter (respMatched questions)).foldl (gradeStep questions ppq)
          st := by
  induction rs with
  | nil => intro st; rfl
  | cons r rs ih =>
    intro st
    simp only [List.foldl_cons, List.filter_cons]
    cases h : dictGet questions r.questionId with
    | none =>
      have hm : respMatched questions r = false := by
        simp [respMatched, h]
      rw [gradeStep_unmatched _ _ _ _ h, hm]
      simpa using ih st
    | some q =>
      have hm : respMatched questions r = true := by
        simp [respMatched, h]
      rw [hm]
      simpa using ih (gradeStep questions ppq st r)

theorem foldl_correct_count (questions : List (Nat × Question)) (ppq : ℚ)
    (rs : List QuizResponseItem) :
    ∀ st : GradeState,
      (rs.foldl (gradeStep questions ppq) st).correct_count
        = st.correct_count + (rs.filter (respCorrect questions)).length := by
  induction rs with
  | nil => intro st; simp
  | cons r rs ih =>
    intro st
    simp only [List.foldl_cons, List.filter_cons]
    cases h : dictGet questions r.questionId with
    | none =>
      have hm : respCorrect questions r = false := by
        simp [respCorrect, h]
      rw [gradeStep_unmatched _ _ _ _ h, hm]
      simpa using ih st
    | some q =>
      by_cases hc : answerIsCorrect r.userResponse q.correct_answer
      · have hm : respCorrect questions r = true := by
          simp [respCorrect, h, hc]
        have hstep :
            (gradeStep questions ppq st r).correct_count
              = st.correct_count + 1 := by
          unfold gradeStep
          rw [h]
          simp [hc]
        rw [hm, ih (gradeStep questions ppq st r), hstep]
        simp
        omega
      · have hm : respCorrect questions r = false := by
          simp [respCorrect, h, hc]
        have hstep :
            (gradeStep questions ppq st r).correct_count
              = st.correct_count := by
          unfold gradeStep
          rw [h]
          simp [hc]
        rw [hm, ih (gradeStep questions ppq st r), hstep]
        simp

theorem foldl_calculated_score (questions : List (Nat × Question)) (ppq : ℚ)
    (rs : List QuizResponseItem) :
    ∀ st : GradeState,
      (rs.foldl (gradeStep questions ppq) st).calculated_score
        = st.calculated_score
          + ((rs.filter (respCorrect questions)).length : ℚ) * ppq := by
  induction rs with
  | nil => intro st; simp
  | cons r rs ih =>
    intro st
    simp only [List.foldl_cons, List.filter_cons]
    cases h : dictGet questions r.questionId with
    | none =>
      have hm : respCorrect questions r = false := by
        simp [respCorrect, h]
      rw [gradeStep_unmatched _ _ _ _ h, hm]
      simpa using ih st
    | some q =>
      by_cases hc : answerIsCorrect r.userResponse q.correct_answer
      · have hm : respCorrect questions r = true := by
          simp [respCorrect, h, hc]
        have hstep :
            (gradeStep questions ppq st r).calculated_score
              = st.calculated_score + ppq := by
          unfold gradeStep
          rw [h]
          simp [hc]
        rw [hm, ih (gradeStep questions ppq st r), hstep]
        simp only [if_true, List.length_cons]
        push_cast
        ring
      · have hm : respCorrect questions r = false := by
          simp [respCorrect, h, hc]
        have hstep :
            (gradeStep questions ppq st r).calculated_score
              = st.calculated_score := by
          unfold gradeStep
          rw [h]
          simp [hc]
        rw [hm, ih (gradeStep questions ppq st r), hstep]
        simp

theorem foldl_detailed_results (questions : List (Nat × Question)) (ppq : ℚ)
    (rs : List QuizResponseItem) :
    ∀ st : GradeState,
      (rs.foldl (gradeStep questions ppq) st).detailed_results
        = st.detailed_results
          ++ (rs.filter (respMatched questions)).map (resultOf questions) := by
  induction rs with
  | nil => intro st; simp
  | cons r rs ih =>
    intro st
    simp only [List.foldl_cons, List.filter_cons]
    cases h : dictGet questions r.questionId with
    | none =>
      have hm : respMatched questions r = false := by
        simp [respMatched, h]
      rw [gradeStep_unmatched _ _ _ _ h, hm]
      simpa using ih st
    | some q =>
      have hm : respMatched questions r = true := by
        simp [respMatched, h]
      have hstep :
          (gradeStep questions ppq st r).detailed_results
            = st.detailed_results ++ [resultOf questions r] := by
        unfold gradeStep resultOf
        rw [h]
      rw [hm, ih (gradeStep questions ppq st r), hstep]
      simp

theorem foldl_detailed_breakdown (questions : List (Nat × Question)) (ppq : ℚ)
    (rs : List QuizResponseItem) :
    ∀ st : GradeState,
      (rs.foldl (gradeStep questions ppq) st).detailed_breakdown
        = st.detailed_breakdown
          ++ (rs.filter (respMatched questions)).map
              (breakdownOf questions) := by
  induction rs with
  | nil => intro st; simp
  | cons r rs ih =>
    intro st
    simp only [List.foldl_cons, List.filter_cons]
    cases h : dictGet questions r.questionId with
    | none =>
      have hm : respMatched questions r = false := by
        simp [respMatched, h]
      rw [gradeStep_unmatched _ _ _ _ h, hm]
      simpa using ih st
    | some q =>
      have hm : respMatched questions r = true := by
        simp [respMatched, h]
      have hstep :
          (gradeStep questions ppq st r).detailed_breakdown
            = st.detailed_breakdown ++ [breakdownOf questions r] := by
        unfold gradeStep breakdownOf
        rw [h]
      rw [hm, ih (gradeStep questions ppq st r), hstep]
      simp

theorem foldl_user_answers (questions : List (Nat × Question)) (ppq : ℚ)
    (hinv : ∀ p ∈ questions, p.2.id = p.1)
    (rs : List QuizResponseItem) (k : String) :
    ∀ st : GradeState,
      dictGet (rs.foldl (gradeStep questions ppq) st).user_answers k
        = Option.or
            (((rs.filter (fun r => respMatched questions r
                && (toString r.questionId == k))).map
                  QuizResponseItem.userResponse).getLast?)
            (dictGet st.user_answers k) := by
  induction rs using List.reverseRecOn with
  | nil => intro st; simp
  | append_singleton l r ih =>
    intro st
    rw [List.foldl_append]
    simp only [List.foldl_cons, List.foldl_nil]
    cases h : dictGet questions r.questionId with
    | none =>
      have hm : (respMatched questions r
          && (toString r.questionId == k)) = false := by
        simp [respMatched, h]
      rw [gradeStep_unmatched _ _ _ _ h, List.filter_append]
      simp only [List.filter_cons, hm, List.filter_nil]
      simpa using ih st
    | some q =>
      have hid : q.id = r.questionId := by
        have hmem := dictGet_mem questions r.questionId q h
        exact hinv (r.questionId, q) hmem
      have hstep :
          (gradeStep questions ppq (l.foldl (gradeStep questions ppq) st)
              r).user_answers
            = dictInsert
                (l.foldl (gradeStep questions ppq) st).user_answers
                (toString q.id) r.userResponse := by
        unfold gradeStep
        rw [h]
      rw [hstep, dictGet_dictInsert]
      rw [List.filter_append]
      by_cases hk : toString r.questionId == k
      · have hkq : (toString q.id == k) = true := by rw [hid]; exact hk
        have hm : (respMatched questions r
            && (toString r.questionId == k)) = true := by
          simp [respMatched, h, hk]
        simp only [hkq, if_true, List.filter_cons, hm, List.filter_nil,
          List.map_append]
        simp
      · have hkq : (toString q.id == k) = false := by
          rw [hid]
          exact Bool.eq_false_iff.mpr hk
        have hm : (respMatched questions r
            && (toString r.questionId == k)) = false := by
          simp only [Bool.and_eq_false_iff]
          right
          exact Bool.eq_false_iff.mpr hk
        simp only [hkq, if_false, List.filter_cons, hm, List.filter_nil]
        simpa using ih st

/-! ## Characterizations of `submit_quiz`'s output -/

theorem submit_quiz_score_def (quiz : Quiz) (rs : List QuizResponseItem) :
    (submit_quiz quiz rs).submission.score
      = pyRound ((submit_quiz quiz rs).calculated_score) := rfl

theorem submit_quiz_max_score (quiz : Quiz) (rs : List QuizResponseItem) :
    (submit_quiz quiz rs).submission.max_score = quiz.max_score := rfl

theorem submit_quiz_total (quiz : Quiz) (rs : List QuizResponseItem) :
    (submit_quiz quiz rs).total_questions
      = (questionsDict quiz.questions).length := rfl

theorem submit_quiz_calculated (quiz : Quiz) (rs : List QuizResponseItem) :
    (submit_quiz quiz rs).calculated_score
      = ((rs.filter (respCorrect (questionsDict quiz.questions))).length : ℚ)
        * (if (questionsDict quiz.questions).length = 0 then 0
           else (quiz.max_score : ℚ)
             / ((questionsDict quiz.questions).length : ℚ)) := by
  unfold submit_quiz
  simp only [foldl_calculated_score]
  simp [initGradeState]

theorem submit_quiz_correct_count (quiz : Quiz) (rs : List QuizResponseItem) :
    (submit_quiz quiz rs).correct_count
      = (rs.filter (respCorrect (questionsDict quiz.questions))).length := by
  unfold submit_quiz
  simp only [foldl_correct_count]
  simp [initGradeState]

theorem submit_quiz_results (quiz : Quiz) (rs : List QuizResponseItem) :
    (submit_quiz quiz rs).submission.results
      = (rs.filter (respMatched (questionsDict quiz.questions))).map
          (resultOf (questionsDict quiz.questions)) := by
  unfold submit_quiz
  simp only [foldl_detailed_results]
  simp [initGradeState]

theorem submit_quiz_breakdown (quiz : Quiz) (rs : List QuizResponseItem) :
    (submit_quiz quiz rs).detailed_breakdown
      = (rs.filter (respMatched (questionsDict quiz.questions))).map
          (breakdownOf (questionsDict quiz.questions)) := by
  unfold submit_quiz
  simp only [foldl_detailed_breakdown]
  simp [initGradeState]

theorem submit_quiz_answers (quiz : Quiz) (rs : List QuizResponseItem)
    (k : String) :
    dictGet (submit_quiz quiz rs).submission.answers k
      = (((rs.filter (fun r => respMatched (questionsDict quiz.questions) r
            && (toString r.questionId == k))).map
              QuizResponseItem.userResponse).getLast?) := by
  unfold submit_quiz
  simp only [foldl_user_answers (questionsDict quiz.questions) _
    (questionsDict_snd_id quiz.questions)]
  simp [initGradeState, dictGet]

/-- The number of correct matched responses never exceeds the question count
when the submitted ids are duplicate-free. -/
theorem correct_length_le (quiz : Quiz) (rs : List QuizResponseItem)
    (hnd : (rs.map QuizResponseItem.questionId).Nodup) :
    (rs.filter (respCorrect (questionsDict quiz.questions))).length
      ≤ (questionsDict quiz.questions).length := by
  set questions := questionsDict quiz.questions with hq
  have hsub : ∀ r ∈ rs.filter (respCorrect questions),
      r.questionId ∈ questions.map Prod.fst := by
    intro r hr
    have hc := List.of_mem_filter hr
    unfold respCorrect at hc
    cases h : dictGet questions r.questionId with
    | none => rw [h] at hc; cases hc
    | some q => exact mem_keys_of_dictGet questions r.questionId q h
  have hndf : ((rs.filter (respCorrect questions)).map
      QuizResponseItem.questionId).Nodup := by
    refine List.Nodup.sublist ?_ hnd
    exact List.Sublist.map _ (List.filter_sublist rs)
  have hsub' : ((rs.filter (respCorrect questions)).map
      QuizResponseItem.questionId) ⊆ questions.map Prod.fst := by
    intro i hi
    rcases List.mem_map.mp hi with ⟨r, hr, rfl⟩
    exact hsub r hr
  calc (rs.filter (respCorrect questions)).length
      = ((rs.filter (respCorrect questions)).map
          QuizResponseItem.questionId).length := by simp
    _ = ((rs.filter (respCorrect questions)).map
          QuizResponseItem.questionId).toFinset.card :=
        (List.toFinset_card_of_nodup hndf).symm
    _ ≤ (questions.map Prod.fst).toFinset.card := by
        refine Finset.card_le_card ?_
        intro i hi
        rw [List.mem_toFinset] at hi ⊢
        exact hsub' hi
    _ ≤ (questions.map Prod.fst).length := List.toFinset_card_le _
    _ = questions.length := by simp

/-! ## Claims -/

/-- C1 (counterexample): the invariant `0 ≤ score ≤ max_score` fails as
stated.  On a quiz with one question worth `max_score = 1`, submitting the
correct answer twice makes the loop award the point twice, so the stored
score is 2 while the stored `max_score` is 1. -/
theorem score_exceeds_max_on_duplicate_answers :
    ((submit_quiz quizOne [⟨1, "A"⟩, ⟨1, "A"⟩]).submission.max_score : ℤ)
      < (submit_quiz quizOne [⟨1, "A"⟩, ⟨1, "A"⟩]).submission.score := by
  have hc : (submit_quiz quizOne [⟨1, "A"⟩, ⟨1, "A"⟩]).calculated_score
      = 2 := by
    simp +decide [submit_quiz, gradeStep, questionsDict, dictInsert, dictGet,
      answerIsCorrect, pyUpper, pyStrip, initGradeState, quizOne, qA]
    norm_num
  have hm : (submit_quiz quizOne [⟨1, "A"⟩, ⟨1, "A"⟩]).submission.max_score
      = 1 := rfl
  rw [submit_quiz_score_def, hc, hm]
  have : pyRound 2 = 2 := by
    simpa using pyRound_intCast 2
  rw [this]
  norm_num

/-- C1 (amended): provided each `question_id` appears at most once among the
submitted answers, every Submission created by grading has an integer score
with `0 ≤ score ≤ max_score`, where `max_score` is the quiz's point budget
copied onto the Submission at grading time. -/
theorem score_bounds_of_distinct_ids (quiz : Quiz)
    (rs : List QuizResponseItem)
    (hnd : (rs.map QuizResponseItem.questionId).Nodup) :
    (submit_quiz quiz rs).submission.max_score = quiz.max_score ∧
    0 ≤ (submit_quiz quiz rs).submission.score ∧
    (submit_quiz quiz rs).submission.score ≤ (quiz.max_score : ℤ) := by
  have hcalc := submit_quiz_calculated quiz rs
  have hcle := correct_length_le quiz rs hnd
  set c := (rs.filter (respCorrect (questionsDict quiz.questions))).length
    with hc
  set n := (questionsDict quiz.questions).length with hn
  have h0 : 0 ≤ (submit_quiz quiz rs).calculated_score := by
    rw [hcalc]
    by_cases hz : n = 0
    · simp [hz]
    · have hnpos : 0 < (n : ℚ) := by positivity
      have : 0 ≤ (quiz.max_score : ℚ) / (n : ℚ) := by positivity
      simp only [hz, if_false]
      positivity
  have hM : (submit_quiz quiz rs).calculated_score
      ≤ (quiz.max_score : ℚ) := by
    rw [hcalc]
    by_cases hz : n = 0
    · simp [hz]
    · simp only [hz, if_false]
      have hnpos : 0 < (n : ℚ) := by
        have : 0 < n := Nat.pos_of_ne_zero hz
        exact_mod_cast this
      have hppq : 0 ≤ (quiz.max_score : ℚ) / (n : ℚ) := by positivity
      calc (c : ℚ) * ((quiz.max_score : ℚ) / (n : ℚ))
          ≤ (n : ℚ) * ((quiz.max_score : ℚ) / (n : ℚ)) := by
            exact mul_le_mul_of_nonneg_right (by exact_mod_cast hcle) hppq
        _ = (quiz.max_score : ℚ) := by
            field_simp
  refine ⟨rfl, ?_, ?_⟩
  · rw [submit_quiz_score_def]
    exact pyRound_nonneg h0
  · rw [submit_quiz_score_def]
    refine pyRound_le ?_
    exact_mod_cast hM

/-- C1 (witness): the amended bound evaluated on a duplicate-free submission
to the two-question quiz. -/
theorem score_bounds_of_distinct_ids_witness :
    (([⟨1, "A"⟩, ⟨2, "b"⟩] : List QuizResponseItem).map
        QuizResponseItem.questionId).Nodup ∧
    (0 ≤ (submit_quiz quizTwo [⟨1, "A"⟩, ⟨2, "b"⟩]).submission.score ∧
      (submit_quiz quizTwo [⟨1, "A"⟩, ⟨2, "b"⟩]).submission.score
        ≤ (quizTwo.max_score : ℤ)) :=
  ⟨by decide,
    (score_bounds_of_distinct_ids quizTwo [⟨1, "A"⟩, ⟨2, "b"⟩] (by decide)).2⟩

/-- C2 (counterexample): grading does not use only the last duplicate entry.
On a one-question quiz, submitting the same correct answer twice yields
correct count 2, a two-entry breakdown, and score 2, whereas omitting the
earlier duplicate yields correct count 1 and score 1. -/
theorem duplicates_scored_each_time :
    (submit_quiz quizOne [⟨1, "A"⟩, ⟨1, "A"⟩]).correct_count = 2 ∧
    (submit_quiz quizOne [⟨1, "A"⟩]).correct_count = 1 ∧
    (submit_quiz quizOne [⟨1, "A"⟩, ⟨1, "A"⟩]).submission.results.length
      = 2 ∧
    (submit_quiz quizOne [⟨1, "A"⟩]).submission.results.length = 1 ∧
    (submit_quiz quizOne [⟨1, "A"⟩, ⟨1, "A"⟩]).submission.score = 2 ∧
    (submit_quiz quizOne [⟨1, "A"⟩]).submission.score = 1 := by
  refine ⟨by decide, by decide, by decide, by decide, ?_, ?_⟩
  · have hc : (submit_quiz quizOne [⟨1, "A"⟩, ⟨1, "A"⟩]).calculated_score
        = 2 := by
      simp +decide [submit_quiz, gradeStep, questionsDict, dictInsert,
        dictGet, answerIsCorrect, pyUpper, pyStrip, initGradeState, quizOne,
        qA]
      norm_num
    rw [submit_quiz_score_def, hc]
    simpa using pyRound_intCast 2
  · have hc : (submit_quiz quizOne [⟨1, "A"⟩]).calculated_score = 1 := by
      simp +decide [submit_quiz, gradeStep, questionsDict, dictInsert,
        dictGet, answerIsCorrect, pyUpper, pyStrip, initGradeState, quizOne,
        qA]
    rw [submit_quiz_score_def, hc]
    simpa using pyRound_intCast 1

/-- C2 (amended): only the stored answers map applies last-one-wins to
duplicate `question_id` entries — looking a quiz question's id up in the
stored `answers` dict returns the last matching submitted value.  The score,
correct count, and per-question breakdown instead process every duplicate
entry independently: each matched entry contributes its own breakdown record
and, when correct, its own share of points. -/
theorem answers_last_wins_scoring_counts_all (quiz : Quiz)
    (rs : List QuizResponseItem) :
    (∀ k : String,
      dictGet (submit_quiz quiz rs).submission.answers k
        = (((rs.filter
              (fun r => respMatched (questionsDict quiz.questions) r
                && (toString r.questionId == k))).map
                QuizResponseItem.userResponse).getLast?)) ∧
    (submit_quiz quiz rs).correct_count
      = (rs.filter (respCorrect (questionsDict quiz.questions))).length ∧
    (submit_quiz quiz rs).submission.results.length
      = (rs.filter (respMatched (questionsDict quiz.questions))).length ∧
    (submit_quiz quiz rs).calculated_score
      = ((rs.filter (respCorrect (questionsDict quiz.questions))).length : ℚ)
        * (if (questionsDict quiz.questions).length = 0 then 0
           else (quiz.max_score : ℚ)
             / ((questionsDict quiz.questions).length : ℚ)) := by
  refine ⟨fun k => submit_quiz_answers quiz rs k,
    submit_quiz_correct_count quiz rs, ?_, submit_quiz_calculated quiz rs⟩
  rw [submit_quiz_results]
  simp

/-- C3 (counterexample): the final score is not the raw score rounded half
up.  On a two-question quiz with `max_score = 1`, one correct answer gives
raw score `1/2`; round-half-up would give 1 but the stored score is 0. -/
theorem half_score_not_rounded_up :
    (submit_quiz quizTwo [⟨1, "A"⟩]).submission.score
        ≠ specRoundHalfUp ((submit_quiz quizTwo [⟨1, "A"⟩]).calculated_score)
      ∧ (submit_quiz quizTwo [⟨1, "A"⟩]).calculated_score = 1/2
      ∧ (submit_quiz quizTwo [⟨1, "A"⟩]).submission.score = 0 := by
  have hc : (submit_quiz quizTwo [⟨1, "A"⟩]).calculated_score = 1/2 := by
    simp +decide [submit_quiz, gradeStep, questionsDict, dictInsert, dictGet,
      answerIsCorrect, pyUpper, pyStrip, initGradeState, quizTwo, qA, qB]
  have hs : (submit_quiz quizTwo [⟨1, "A"⟩]).submission.score = 0 := by
    rw [submit_quiz_score_def, hc]
    norm_num [pyRound]
  refine ⟨?_, hc, hs⟩
  rw [hs, hc]
  norm_num [specRoundHalfUp]

/-- C3 (amended): the final integer score is the accumulated raw score
rounded to the nearest integer with ties going to the even integer (Python 3
`round`, round-half-to-even): the score is within `1/2` of the raw score and
an exact tie yields an even score.  The spec's concrete scenario still
holds: 3 questions, `max_score = 10`, 2 correct answers give raw score
`20/3 = 6.666…` and final score 7. -/
theorem score_rounds_half_to_even (quiz : Quiz)
    (rs : List QuizResponseItem) :
    |(submit_quiz quiz rs).calculated_score
        - ((submit_quiz quiz rs).submission.score : ℚ)| ≤ 1/2 ∧
    (|(submit_quiz quiz rs).calculated_score
        - ((submit_quiz quiz rs).submission.score : ℚ)| = 1/2 →
      Even (submit_quiz quiz rs).submission.score) ∧
    (submit_quiz quizThree [⟨1, "A"⟩, ⟨2, "x"⟩, ⟨3, "C"⟩]).submission.score
      = 7 := by
  refine ⟨?_, ?_, ?_⟩
  · rw [submit_quiz_score_def]
    exact abs_pyRound_sub_le _
  · intro h
    rw [submit_quiz_score_def] at h ⊢
    exact pyRound_tie_even h
  · have hc : (submit_quiz quizThree
        [⟨1, "A"⟩, ⟨2, "x"⟩, ⟨3, "C"⟩]).calculated_score = 20/3 := by
      simp +decide [submit_quiz, gradeStep, questionsDict, dictInsert,
        dictGet, answerIsCorrect, pyUpper, pyStrip, initGradeState,
        quizThree, qA, qB, qC]
      norm_num
    rw [submit_quiz_score_def, hc]
    norm_num [pyRound]

/-- C3 (witness): the tie case evaluated concretely — raw score `1/2`, the
stored score 0 is within half a point and even. -/
theorem score_rounds_half_to_even_witness :
    |(submit_quiz quizTwo [⟨1, "A"⟩]).calculated_score
        - ((submit_quiz quizTwo [⟨1, "A"⟩]).submission.score : ℚ)| = 1/2 ∧
    Even (submit_quiz quizTwo [⟨1, "A"⟩]).submission.score := by
  have hc : (submit_quiz quizTwo [⟨1, "A"⟩]).calculated_score = 1/2 := by
    simp +decide [submit_quiz, gradeStep, questionsDict, dictInsert, dictGet,
      answerIsCorrect, pyUpper, pyStrip, initGradeState, quizTwo, qA, qB]
  have hs : (submit_quiz quizTwo [⟨1, "A"⟩]).submission.score = 0 := by
    rw [submit_quiz_score_def, hc]
    norm_num [pyRound]
  have habs : |(submit_quiz quizTwo [⟨1, "A"⟩]).calculated_score
      - ((submit_quiz quizTwo [⟨1, "A"⟩]).submission.score : ℚ)| = 1/2 := by
    rw [hc, hs]
    norm_num
  exact ⟨habs, (score_rounds_half_to_even quizTwo [⟨1, "A"⟩]).2.1 habs⟩

/-- C4 (confirmed): on a quiz with at least one question (question ids
distinct, as database primary keys are), answering every question exactly
once with its correct-answer key scores exactly `max_score`, and any
submission in which no matched answer is judged correct scores 0. -/
theorem perfect_and_zero_scores (quiz : Quiz)
    (hnd : (quiz.questions.map Question.id).Nodup)
    (hne : quiz.questions ≠ []) :
    (submit_quiz quiz (quiz.questions.map
        (fun q => ⟨q.id, q.correct_answer⟩))).submission.score
      = (quiz.max_score : ℤ) ∧
    ∀ rs : List QuizResponseItem,
      (∀ r ∈ rs, respCorrect (questionsDict quiz.questions) r = false) →
      (submit_quiz quiz rs).submission.score = 0 := by
  constructor
  · set rs := quiz.questions.map
      (fun q => (⟨q.id, q.correct_answer⟩ : QuizResponseItem)) with hrs
    have hall : ∀ r ∈ rs,
        respCorrect (questionsDict quiz.questions) r = true := by
      intro r hr
      rcases List.mem_map.mp hr with ⟨q, hq, rfl⟩
      unfold respCorrect
      rw [show (⟨q.id, q.correct_answer⟩ : QuizResponseItem).questionId
        = q.id from rfl]
      rw [dictGet_questionsDict_self quiz.questions hnd q hq]
      unfold answerIsCorrect
      exact beq_self_eq_true _
    have hfilter : rs.filter (respCorrect (questionsDict quiz.questions))
        = rs := List.filter_eq_self.mpr hall
    have hn : (questionsDict quiz.questions).length
        = quiz.questions.length := by
      rw [questionsDict_eq_map quiz.questions hnd]
      simp
    have hlen : rs.length = quiz.questions.length := by
      rw [hrs]
      simp
    have hqnz : quiz.questions.length ≠ 0 :=
      Nat.pos_iff_ne_zero.mp (List.length_pos.mpr hne)
    have hcalc : (submit_quiz quiz rs).calculated_score
        = (quiz.max_score : ℚ) := by
      rw [submit_quiz_calculated, hfilter, hlen, hn]
      simp only [hqnz, if_false]
      have : (quiz.questions.length : ℚ) ≠ 0 := by exact_mod_cast hqnz
      field_simp
    rw [submit_quiz_score_def, hcalc, pyRound_natCast]
  · intro rs hnone
    have hfilter : rs.filter (respCorrect (questionsDict quiz.questions))
        = [] := by
      refine List.filter_eq_nil_iff.mpr ?_
      intro r hr
      simp [hnone r hr]
    have hcalc : (submit_quiz quiz rs).calculated_score = 0 := by
      rw [submit_quiz_calculated, hfilter]
      simp
    rw [submit_quiz_score_def, hcalc]
    simpa using pyRound_intCast 0

/-- C4 (witness): the three-question quiz with `max_score = 10` scores 10 on
its answer key and 0 on an all-wrong submission. -/
theorem perfect_and_zero_scores_witness :
    (quizThree.questions.map Question.id).Nodup ∧
    quizThree.questions ≠ [] ∧
    (∀ r ∈ ([⟨1, "x"⟩, ⟨2, "y"⟩] : List QuizResponseItem),
      respCorrect (questionsDict quizThree.questions) r = false) ∧
    (submit_quiz quizThree (quizThree.questions.map
        (fun q => ⟨q.id, q.correct_answer⟩))).submission.score
      = (quizThree.max_score : ℤ) ∧
    (submit_quiz quizThree [⟨1, "x"⟩, ⟨2, "y"⟩]).submission.score = 0 :=
  ⟨by decide, by decide, by decide,
    (perfect_and_zero_scores quizThree (by decide) (by decide)).1,
    (perfect_and_zero_scores quizThree (by decide) (by decide)).2
      [⟨1, "x"⟩, ⟨2, "y"⟩] (by decide)⟩

/-- C5 (confirmed): a quiz with zero questions grades any submitted answer
sequence without any division (the `points_per_question` division is guarded
by the zero check and the embedding is a total function), producing a
Submission with score 0, an empty per-question results list, an empty
breakdown, and correct count 0. -/
theorem empty_quiz_grades_safely (quiz : Quiz) (rs : List QuizResponseItem)
    (h : quiz.questions = []) :
    (submit_quiz quiz rs).submission.score = 0 ∧
    (submit_quiz quiz rs).submission.results = [] ∧
    (submit_quiz quiz rs).detailed_breakdown = [] ∧
    (submit_quiz quiz rs).correct_count = 0 := by
  have hdict : questionsDict quiz.questions = [] := by
    rw [h]
    rfl
  have hmatched : ∀ r : QuizResponseItem,
      respMatched (questionsDict quiz.questions) r = false := by
    intro r
    unfold respMatched
    rw [hdict]
    rfl
  have hcorrect : ∀ r : QuizResponseItem,
      respCorrect (questionsDict quiz.questions) r = false := by
    intro r
    unfold respCorrect
    rw [hdict]
    rfl
  have hfm : rs.filter (respMatched (questionsDict quiz.questions)) = [] :=
    List.filter_eq_nil_iff.mpr (fun r _ => by simp [hmatched r])
  have hfc : rs.filter (respCorrect (questionsDict quiz.questions)) = [] :=
    List.filter_eq_nil_iff.mpr (fun r _ => by simp [hcorrect r])
  refine ⟨?_, ?_, ?_, ?_⟩
  · have hcalc : (submit_quiz quiz rs).calculated_score = 0 := by
      rw [submit_quiz_calculated, hfc]
      simp
    rw [submit_quiz_score_def, hcalc]
    simpa using pyRound_intCast 0
  · rw [submit_quiz_results, hfm]
    rfl
  · rw [submit_quiz_breakdown, hfm]
    rfl
  · rw [submit_quiz_correct_count, hfc]
    rfl

/-- C5 (witness): the zero-question fixture with `max_score = 5` graded on a
non-empty submission. -/
theorem empty_quiz_grades_safely_witness :
    quizEmpty.questions = [] ∧
    (submit_quiz quizEmpty [⟨1, "A"⟩]).submission.score = 0 ∧
    (submit_quiz quizEmpty [⟨1, "A"⟩]).submission.results = [] ∧
    (submit_quiz quizEmpty [⟨1, "A"⟩]).detailed_breakdown = [] :=
  ⟨rfl,
    (empty_quiz_grades_safely quizEmpty [⟨1, "A"⟩] rfl).1,
    (empty_quiz_grades_safely quizEmpty [⟨1, "A"⟩] rfl).2.1,
    (empty_quiz_grades_safely quizEmpty [⟨1, "A"⟩] rfl).2.2.1⟩

/-- C6 (confirmed): submitted entries whose `question_id` does not belong to
the quiz are silently dropped — grading is a total function of the filtered
sequence, and the whole result (score, correct count, stored answers,
results, and breakdown) is identical to grading the sequence with the
unmatched entries removed. -/
theorem unknown_question_ids_dropped (quiz : Quiz)
    (rs : List QuizResponseItem) :
    submit_quiz quiz rs
      = submit_quiz quiz
          (rs.filter (respMatched (questionsDict quiz.questions))) := by
  simp only [submit_quiz]
  have hfold := foldl_gradeStep_filter (questionsDict quiz.questions)
    (if (questionsDict quiz.questions).length = 0 then 0
     else (quiz.max_score : ℚ) / ((questionsDict quiz.questions).length : ℚ))
  rw [hfold rs,
    hfold (rs.filter (respMatched (questionsDict quiz.questions))),
    List.filter_filter]

/-- C7 (confirmed): review reconstruction is a pure projection of the stored
grading.  Position by position, its correctness flags are exactly the flags
stored at grading time (never recomputed from the answers), its question
texts are looked up by question id with the `"Question text not found."`
sentinel substituted when the id no longer resolves, its correct answers are
the stored keys, and the displayed answers are the stored answers
upper-cased. -/
theorem review_preserves_stored_grading (qs : List Question)
    (s : Submission) :
    (get_submission_details qs s).map QuestionReview.is_correct
      = s.results.map ResultItem.is_correct ∧
    (get_submission_details qs s).map QuestionReview.question_text
      = s.results.map (fun r =>
          (dictGet (questionTextsDict qs) r.question_id).getD
            "Question text not found.") ∧
    (get_submission_details qs s).map QuestionReview.correct_answer
      = s.results.map ResultItem.correct_answer ∧
    (get_submission_details qs s).map QuestionReview.your_answer
      = s.results.map (fun r => pyUpper r.user_answer) := by
  refine ⟨?_, ?_, ?_, ?_⟩ <;>
    simp [get_submission_details, reviewItem, List.map_map, Function.comp]

/-- C8 (confirmed): when the AI call fails, or every returned question item
is malformed, `generate_quiz` leaves the database exactly as it found it
(the quiz row created for the request is deleted before the failure
surfaces) and reports the failure.  The freshness hypotheses say the store
assigned the new quiz an unused primary key. -/
theorem failed_generation_rolls_back (db : DB) (payload : GenerateQuizIn)
    (new_id : Nat) (ai : Except Unit (List QData))
    (hq : ∀ q ∈ db.quizzes, q.id ≠ new_id)
    (hqq : ∀ q ∈ db.questions, q.quiz_id ≠ new_id)
    (hfail : ai = .error () ∨
      ∃ items, ai = .ok items ∧ items.filter qdataValid = []) :
    (generate_quiz db payload new_id ai).1 = .error () ∧
    (generate_quiz db payload new_id ai).2 = db := by
  have hdel : ∀ r : QuizRow, r.id = new_id →
      quizDelete { db with quizzes := db.quizzes ++ [r] } new_id = db := by
    intro r hr
    unfold quizDelete
    have h1 : (db.quizzes ++ [r]).filter (fun q => q.id ≠ new_id)
        = db.quizzes := by
      rw [List.filter_append]
      have h2 : db.quizzes.filter (fun q => q.id ≠ new_id) = db.quizzes :=
        List.filter_eq_self.mpr
          (fun q hqmem => decide_eq_true (hq q hqmem))
      have h3 : ([r] : List QuizRow).filter (fun q => q.id ≠ new_id)
          = [] := by
        simp [List.filter, hr]
      rw [h2, h3, List.append_nil]
    have h4 : db.questions.filter (fun q => q.quiz_id ≠ new_id)
        = db.questions :=
      List.filter_eq_self.mpr
        (fun q hqmem => decide_eq_true (hqq q hqmem))
    simp only [h1, h4]
  rcases hfail with hfail | ⟨items, hai, hitems⟩
  · subst hfail
    exact ⟨rfl, hdel _ rfl⟩
  · subst hai
    have : (items.filter qdataValid).map (buildQuestion new_id) = [] := by
      rw [hitems]
      rfl
    constructor
    · simp [generate_quiz, this]
    · simp only [generate_quiz, this, List.isEmpty_nil, if_true]
      exact hdel _ rfl

/-- C8 (witness): a failing AI call on a store holding one unrelated quiz
leaves the store unchanged, both for a transport failure and for a response
whose only item is missing required keys. -/
theorem failed_generation_rolls_back_witness :
    (∀ q ∈ dbOne.quizzes, q.id ≠ 2) ∧
    (∀ q ∈ dbOne.questions, q.quiz_id ≠ 2) ∧
    (generate_quiz dbOne payloadMath 2 (.error ())).1 = .error () ∧
    (generate_quiz dbOne payloadMath 2 (.error ())).2 = dbOne ∧
    (generate_quiz dbOne payloadMath 2
        (.ok [{ text := some "only text", options := none,
                correct_answer := none, difficulty := none }])).2 = dbOne :=
  ⟨by decide, by decide,
    (failed_generation_rolls_back dbOne payloadMath 2 (.error ())
      (by decide) (by decide) (Or.inl rfl)).1,
    (failed_generation_rolls_back dbOne payloadMath 2 (.error ())
      (by decide) (by decide) (Or.inl rfl)).2,
    (failed_generation_rolls_back dbOne payloadMath 2
      (.ok [{ text := some "only text", options := none,
              correct_answer := none, difficulty := none }])
      (by decide) (by decide) (Or.inr ⟨_, rfl, by decide⟩)).2⟩

/-- C9 (confirmed): every stored per-question result records the correctness
judgment as exactly the case-insensitive, whitespace-trimmed equality of the
stored submitted text and the stored correct-answer key; in particular
submitting `"a"` where the key is `"A"` is counted correct. -/
theorem correctness_is_normalized_equality (quiz : Quiz)
    (rs : List QuizResponseItem) :
    (∀ item ∈ (submit_quiz quiz rs).submission.results,
      item.is_correct
        = (pyUpper (pyStrip item.user_answer)
            == pyUpper (pyStrip item.correct_answer))) ∧
    (submit_quiz quizOne [⟨1, "a"⟩]).correct_count = 1 := by
  constructor
  · intro item hitem
    rw [submit_quiz_results] at hitem
    rcases List.mem_map.mp hitem with ⟨r, hr, rfl⟩
    have hm := List.of_mem_filter hr
    unfold respMatched at hm
    cases h : dictGet (questionsDict quiz.questions) r.questionId with
    | none => simp [h] at hm
    | some q =>
      unfold resultOf
      rw [h]
      rfl
  · decide

/-- C9 (witness): the stored result of grading `"a"` against the key `"A"`
carries the flag computed by the normalized comparison. -/
theorem correctness_is_normalized_equality_witness :
    ({ question_id := 1, is_correct := true, user_answer := "a",
        correct_answer := "A" } : ResultItem)
      ∈ (submit_quiz quizOne [⟨1, "a"⟩]).submission.results ∧
    ({ question_id := 1, is_correct := true, user_answer := "a",
        correct_answer := "A" } : ResultItem).is_correct
      = (pyUpper (pyStrip "a") == pyUpper (pyStrip "A")) :=
  ⟨by decide,
    (correctness_is_normalized_equality quizOne [⟨1, "a"⟩]).1 _ (by decide)⟩

/-- C10 (confirmed): a question id present in the process-lifetime hint
cache is answered from the cache without any existence check — `get_hint`
succeeds and returns the cached hint whatever the questions table holds,
even if the question was deleted — and the NotFound failure occurs exactly
on a cache miss for a question id that does not resolve. -/
theorem cached_hint_bypasses_question_lookup (cache : HintCache)
    (questions : List Question) (questionId : Nat) (ai_hint : String) :
    (∀ h, dictGet cache questionId = some h →
      get_hint cache questions questionId ai_hint
        = .ok (questionId, h, cache)) ∧
    ((∃ e, get_hint cache questions questionId ai_hint = .error e)
      ↔ dictGet cache questionId = none
        ∧ questions.find? (fun q => q.id == questionId) = none) := by
  constructor
  · intro h hh
    unfold get_hint
    rw [hh]
  · unfold get_hint
    cases hc : dictGet cache questionId with
    | some h => simp
    | none =>
      cases hf : questions.find? (fun q => q.id == questionId) with
      | none => simp
      | some q => simp

/-- C10 (witness): with question id 5 cached and an empty questions table,
the hint endpoint still succeeds and returns the cached hint. -/
theorem cached_hint_bypasses_question_lookup_witness :
    dictGet [(5, "think of squares")] 5 = some "think of squares" ∧
    get_hint [(5, "think of squares")] [] 5 "fresh hint"
      = .ok (5, "think of squares", [(5, "think of squares")]) :=
  ⟨by decide,
    (cached_hint_bypasses_question_lookup [(5, "think of squares")] [] 5
      "fresh hint").1 "think of squares" (by decide)⟩

end AIQuizzer
